import Mathlib

/-!
Shallow embedding of `main.py` (fakebook-generator): a script that merges the
PDFs of a directory into one output PDF, prepending a generated cover page and
a generated table of contents, and adding one navigation bookmark per section.

Modelling conventions:
- Python strings are `String`; character-level work happens on `String.data`.
- A PDF read either fails with an error message (`Except.error`) or yields its
  list of pages; a page of a source document is abstracted as a `Nat` token.
- `reportlab` canvas geometry is measured in centipoints (1/100 of a PostScript
  point, 1 inch = 72 points = 7200 centipoints) so every constant of the
  source (0.9 inch margins, 0.32 inch rows, ...) is an exact integer.
  All comparisons taken by the source are far from ties, so exact integer
  arithmetic decides them the same way the source's floating point does.
- A reportlab canvas holds one in-progress page; `showPage` finishes it and
  `save` emits the in-progress page, so a saved canvas has
  (number of showPage calls) + 1 pages.
-/

/-! ### Display names: `name.replace(".pdf", "").replace("_", " ")` (lines 149-150, 227-228) -/

/-- Python single-pass left-to-right `str.replace(".pdf", "")`: at each
position, if the next four characters are `.pdf` they are dropped and the scan
resumes after them, otherwise the character is kept. -/
def stripPdfAll : List Char → List Char
  | [] => []
  | [c] => [c]
  | [c, d] => [c, d]
  | [c, d, e] => [c, d, e]
  | c :: p :: d :: f :: rest =>
    if c = '.' ∧ p = 'p' ∧ d = 'd' ∧ f = 'f' then stripPdfAll rest
    else c :: stripPdfAll (p :: d :: f :: rest)

/-- Python `str.replace("_", " ")`. -/
def underscoreToSpace (s : List Char) : List Char :=
  s.map (fun c => if c = '_' then ' ' else c)

/-- `name.replace(".pdf", "").replace("_", " ")`, the transform the source
applies to file names before display. -/
def displayName (s : String) : String :=
  String.mk (underscoreToSpace (stripPdfAll s.data))

/-- The display-name computation of the TOC renderer (`make_toc_pdf`, line 150). -/
def toc_display_name (name : String) : String := displayName name

/-- The bookmark-title computation of the assembler (`merge_with_index`, line 228). -/
def bookmark_display_name (name : String) : String := displayName name

/-- True iff the four-character pattern `.pdf` occurs somewhere in the string. -/
def containsPdf : List Char → Bool
  | [] => false
  | [_] => false
  | [_, _] => false
  | [_, _, _] => false
  | c :: p :: d :: f :: rest =>
    if c = '.' ∧ p = 'p' ∧ d = 'd' ∧ f = 'f' then true
    else containsPdf (p :: d :: f :: rest)

/-- True iff the string ends with `.pdf`. -/
def pdfSuffix (s : List Char) : Bool :=
  match s.reverse with
  | f :: d :: p :: c :: _ => f = 'f' && d = 'd' && p = 'p' && c = '.'
  | _ => false

/-- Modelled from the spec wording of the display-name transform (used only to
compare the source's transform against it): strip one trailing `.pdf` suffix,
then replace underscores by spaces. -/
def specDisplayName (s : String) : String :=
  String.mk (underscoreToSpace
    (if pdfSuffix s.data then s.data.take (s.data.length - 4) else s.data))

/-! ### Cover renderer: `make_cover_pdf` (lines 22-67) -/

/-- Outcome of looking the cover image up on disk and decoding it
(`os.path.exists` + `PIL.Image.open`): absent, present but undecodable, or
decoded with pixel dimensions. -/
inductive ImageResult where
  | missing
  | decodeError (msg : String)
  | ok (w h : Nat)
deriving DecidableEq

/-- Result of rendering the cover canvas. `showPageCalls` counts explicit page
breaks (the cover never takes one); the saved canvas has `showPageCalls + 1`
pages. `pagesizeW`/`pagesizeH` are the canvas page size in centipoints
(`pagesize=letter`, 612x792 points). -/
structure CoverOut where
  showPageCalls : Nat
  pagesizeW : Int
  pagesizeH : Int
  usedFallback : Bool
  warned : Bool
deriving DecidableEq

/-- `make_cover_pdf`: draw the image scaled and centered when it exists and
decodes; otherwise draw the "Document Collection" fallback title page, with a
warning printed only when decoding failed. No `showPage` call ever happens. -/
def make_cover_pdf (img : ImageResult) : CoverOut :=
  match img with
  | .ok _ _ => ⟨0, 61200, 79200, false, false⟩
  | .decodeError _ => ⟨0, 61200, 79200, true, true⟩
  | .missing => ⟨0, 61200, 79200, true, false⟩

/-- Page count of a saved reportlab canvas: the in-progress page is emitted by
`save`, after every earlier `showPage`. -/
def coverNumPages (c : CoverOut) : Nat := c.showPageCalls + 1

/-! ### TOC renderer: `make_toc_pdf` (lines 70-179), geometry in centipoints -/

/-- `letter` page height: 792 pt. -/
def pageHeight100 : Int := 79200

/-- `margin = 0.9 * inch` = 64.8 pt. -/
def tocMargin : Int := 6480

/-- Row advance `y -= 0.32 * inch` = 23.04 pt. -/
def rowHeight : Int := 2304

/-- Page-break test `y < margin + 0.5 * inch` (line 109). -/
def breakThreshold : Int := tocMargin + 3600

/-- `y` when the first entry row is drawn on page 1: page top minus margin,
minus 0.3 inch after the header, minus 0.5 inch after the rule (lines 80-99). -/
def firstRowY : Int := pageHeight100 - tocMargin - 2160 - 3600

/-- `y` when the first entry row is drawn on a continuation page: page top
minus margin, minus 0.15 inch after the header, minus 0.4 inch after the rule
(lines 117-129). -/
def contRowY : Int := pageHeight100 - tocMargin - 1080 - 2880

/-- Mutable state threaded through the entry loop of `make_toc_pdf`:
the cursor `y`, the 1-based `page_num`, and the drawing log we care about
(which pages got a "Table of Contents (continued)" header, which pages got a
footer so far). -/
structure TocState where
  y : Int
  pageNum : Nat
  contHeaders : List Nat
  footers : List Nat
deriving DecidableEq

/-- One iteration of the entry loop (lines 107-170): if `y` is under the
threshold, draw the footer on the current page, start a new page, draw the
continuation header, and draw the row from the continuation top; otherwise
draw the row where `y` is. Either way `y` then advances by one row height. -/
def tocEntryStep (st : TocState) : TocState :=
  if st.y < breakThreshold then
    ⟨contRowY - rowHeight, st.pageNum + 1,
      st.contHeaders ++ [st.pageNum + 1], st.footers ++ [st.pageNum]⟩
  else
    ⟨st.y - rowHeight, st.pageNum, st.contHeaders, st.footers⟩

/-- The entry loop, one `tocEntryStep` per entry. -/
def tocLoop : Nat → TocState → TocState
  | 0, st => st
  | n + 1, st => tocLoop n (tocEntryStep st)

/-- Result of `make_toc_pdf`: page count of the saved canvas, pages carrying a
continuation header, pages carrying a footer. -/
structure TocOut where
  pages : Nat
  contHeaders : List Nat
  footers : List Nat
deriving DecidableEq

/-- `make_toc_pdf`: header and rule on page 1, then the entry loop, then the
footer of the last page (lines 172-175); `save` emits the last page, so the
saved document has `page_num` pages. Row layout does not depend on the entry
texts (rows have fixed height), only on how many entries there are. -/
def make_toc_pdf (entries : List (String × Nat)) : TocOut :=
  let st := tocLoop entries.length ⟨firstRowY, 1, [], []⟩
  ⟨st.pageNum, st.contHeaders, st.footers ++ [st.pageNum]⟩

/-! ### Catalog and assembly: `merge_with_index` (lines 182-238) -/

instance {ε α : Type} [DecidableEq ε] [DecidableEq α] : DecidableEq (Except ε α) := fun x y =>
  match x, y with
  | .error a, .error b =>
    if h : a = b then isTrue (by rw [h])
    else isFalse (by intro hc; cases hc; exact h rfl)
  | .ok a, .ok b =>
    if h : a = b then isTrue (by rw [h])
    else isFalse (by intro hc; cases hc; exact h rfl)
  | .error _, .ok _ => isFalse (by intro hc; cases hc)
  | .ok _, .error _ => isFalse (by intro hc; cases hc)

/-- A file handed to `merge_with_index`: its path and what `PdfReader(path)`
does with it — raise (error message) or yield the page list. -/
structure SrcFile where
  path : String
  read : Except String (List Nat)
deriving DecidableEq

/-- `os.path.basename`: the part after the last `/`. -/
def pyBasename (p : String) : String :=
  String.mk ((p.data.reverse.takeWhile (fun c => c ≠ '/')).reverse)

/-- Output of the cataloging loop (lines 192-203): the opened readers with
their page lists, the TOC entries `(basename, page_cursor + 1)`, and the
skip warnings, all in input order. -/
structure CatalogOut where
  readers : List (String × List Nat)
  entries : List (String × Nat)
  warnings : List String
deriving DecidableEq

/-- The cataloging loop: try to open each path; on failure warn and skip, on
success record the reader and the entry and advance the page cursor.
(The source's warning wraps the path and cause in quote characters; the
punctuation is elided here.) -/
def catalogAux : List SrcFile → Nat → CatalogOut
  | [], _ => ⟨[], [], []⟩
  | file :: rest, cursor =>
    match file.read with
    | .error e =>
      let o := catalogAux rest cursor
      ⟨o.readers, o.entries,
        ("WARNING: Skipping " ++ file.path ++ " (" ++ e ++ ")") :: o.warnings⟩
    | .ok pages =>
      let o := catalogAux rest (cursor + pages.length)
      ⟨(pyBasename file.path, pages) :: o.readers,
        (pyBasename file.path, cursor + 1) :: o.entries, o.warnings⟩

/-- The TOC entries the run computes (display list fed to `make_toc_pdf`). -/
def catalogEntries (files : List SrcFile) : List (String × Nat) :=
  (catalogAux files 0).entries

/-- The displayed start pages, in catalog order. -/
def catalogStartPages (files : List SrcFile) : List Nat :=
  (catalogEntries files).map (fun e => e.2)

/-- The page counts of the successfully opened documents, in catalog order. -/
def catalogPageCounts (files : List SrcFile) : List Nat :=
  ((catalogAux files 0).readers).map (fun r => r.2.length)

/-- A bookmark of the output: `add_outline_item(title=..., page_number=...)`. -/
structure Bookmark where
  title : String
  page_number : Nat
deriving DecidableEq

/-- A page of the output container: a page of the cover canvas, a page of the
TOC canvas, or a page copied from a named source document. -/
inductive OutPage where
  | cover (i : Nat)
  | toc (i : Nat)
  | src (name : String) (page : Nat)
deriving DecidableEq

/-- The `PdfWriter` contents at the end of `merge_with_index`. -/
structure Container where
  pages : List OutPage
  bookmarks : List Bookmark
deriving DecidableEq

/-- The append loop (lines 225-234): for each opened reader, add its bookmark
at the running index, append its pages, and advance the running index. -/
def appendReaders : List (String × List Nat) → Nat → List OutPage × List Bookmark
  | [], _ => ([], [])
  | (name, pgs) :: rest, idx =>
    let o := appendReaders rest (idx + pgs.length)
    (pgs.map (OutPage.src name) ++ o.1,
      { title := bookmark_display_name name, page_number := idx } :: o.2)

/-- `os.path.join(os.path.dirname(__file__), "static", "cover.png")` (line 189),
with the POSIX separator. -/
def merge_cover_path (programDir : String) : String :=
  programDir ++ "/static/cover.png"

/-- `merge_with_index`: catalog the inputs, fail when nothing opened, then
assemble cover pages, TOC pages, and each reader's pages, with a bookmark for
the cover at index 0, for the TOC at index `cover_pages`, and for each reader
at the running index where its pages begin. -/
def merge_with_index (programDir : String) (readImage : String → ImageResult)
    (files : List SrcFile) : Except String Container :=
  let cat := catalogAux files 0
  if cat.readers.isEmpty then Except.error "No readable PDFs to merge."
  else
    let coverOut := make_cover_pdf (readImage (merge_cover_path programDir))
    let cover_pages := coverNumPages coverOut
    let toc := make_toc_pdf cat.entries
    let toc_pages := toc.pages
    let app := appendReaders cat.readers (cover_pages + toc_pages)
    Except.ok
      { pages := (List.range cover_pages).map OutPage.cover
          ++ (List.range toc_pages).map OutPage.toc ++ app.1,
        bookmarks := { title := "Cover", page_number := 0 }
          :: { title := "Table of Contents", page_number := cover_pages }
          :: app.2 }

/-! ### Entry point: `main` (lines 241-261) -/

/-- Everything `main` observes about the outside world: the directory holding
the program, `os.path.isdir`, the `glob` of `*.pdf` in a directory, what
`PdfReader` does on each path, and what the cover-image lookup finds at each
path. -/
structure World where
  programDir : String
  isDir : String → Bool
  globPdfs : String → List String
  readPdf : String → Except String (List Nat)
  readImage : String → ImageResult

/-- Insertion of a string into a sorted list under code-point order; `sorted`
on Python strings compares code points lexicographically. -/
def insertSorted (s : String) : List String → List String
  | [] => [s]
  | t :: ts =>
    if strLeChars s.data t.data then s :: t :: ts else t :: insertSorted s ts
where
  strLeChars : List Char → List Char → Bool
    | [], _ => true
    | _ :: _, [] => false
    | a :: as, b :: bs => if a = b then strLeChars as bs else decide (a.toNat < b.toNat)

/-- `sorted(...)` over path strings. -/
def sortStrings : List String → List String
  | [] => []
  | s :: ss => insertSorted s (sortStrings ss)

/-- Observable outcome of a run of `main`: process exit code, printed lines,
whether the output file was written, and the path the cover image was looked
up at (if the run got that far). -/
structure MainResult where
  exitCode : Nat
  printed : List String
  outputWritten : Bool
  coverPathUsed : Option String
deriving DecidableEq

/-- `main`: check the argument count, check the directory, glob and sort the
PDFs, fail distinctly when none are found, and otherwise run
`merge_with_index`, which either raises (uncaught, exit code 1, output never
opened) or writes the output. (The progress strings elide the quote characters
and the arrow of the source's f-strings.) -/
def pyMain (argv : List String) (w : World) : MainResult :=
  if argv.length ≠ 3 then
    ⟨1, ["Usage: python main.py OUTPUT.pdf INPUT_DIR"], false, none⟩
  else
    let out_path := argv.getD 1 ""
    let in_dir := argv.getD 2 ""
    if w.isDir in_dir = false then
      ⟨1, ["Error: " ++ in_dir ++ " is not a directory"], false, none⟩
    else
      let pdfs := sortStrings (w.globPdfs in_dir)
      if pdfs.isEmpty then ⟨1, ["No PDFs found in " ++ in_dir], false, none⟩
      else
        let progress := ["Merging " ++ toString pdfs.length ++ " PDFs from "
            ++ in_dir ++ " to " ++ out_path,
          "Adding cover page and beautiful Table of Contents..."]
        let files := pdfs.map (fun p => SrcFile.mk p (w.readPdf p))
        let warnings := (catalogAux files 0).warnings
        match merge_with_index w.programDir w.readImage files with
        | .error e => ⟨1, progress ++ warnings ++ [e], false, none⟩
        | .ok _ =>
          ⟨0, progress ++ warnings ++ ["Done. Your beautiful PDF is ready!"],
            true, some (merge_cover_path w.programDir)⟩

/-! ### Derived quantities named by the properties under scrutiny -/

/-- Vertical space available to entry rows on the first TOC page: from the
`y` of the first row down to the bottom margin. -/
def usableHeight : Int := firstRowY - tocMargin

/-- The bookmark target indices the claims describe: starting at `idx`, one
target per reader, each advancing by that reader's page count. -/
def readerOffsets : List (String × List Nat) → Nat → List Nat
  | [], _ => []
  | (_, pgs) :: rest, idx => idx :: readerOffsets rest (idx + pgs.length)

/-- The displayed start pages the claims describe: starting after `cursor`
pages, entry `i` shows `cursor + 1 + (sum of the page counts before it)`. -/
def startPagesFrom : Nat → List Nat → List Nat
  | _, [] => []
  | cursor, n :: ns => (cursor + 1) :: startPagesFrom (cursor + n) ns

/-- The bookmark targets of a finished merge, in insertion order (empty when
the merge raised). -/
def bookmarkTargets (r : Except String Container) : List Nat :=
  match r with
  | .ok c => c.bookmarks.map (fun b => b.page_number)
  | .error _ => []

/-! ### Concrete runs used to witness the theorems -/

/-- One readable single-page document. -/
def demoFiles1 : List SrcFile := [⟨"docs/a.pdf", Except.ok [10]⟩]

/-- The container `merge_with_index` builds from `demoFiles1`. -/
def demoContainer1 : Container :=
  { pages := [OutPage.cover 0, OutPage.toc 0, OutPage.src "a.pdf" 10],
    bookmarks := [⟨"Cover", 0⟩, ⟨"Table of Contents", 1⟩, ⟨"a", 2⟩] }

/-- Three readable documents of 1, 2 and 5 pages. -/
def demoFiles3 : List SrcFile :=
  [⟨"a.pdf", Except.ok [0]⟩, ⟨"b.pdf", Except.ok [0, 1]⟩,
    ⟨"c.pdf", Except.ok [0, 1, 2, 3, 4]⟩]

/-- The container `merge_with_index` builds from `demoFiles3`. -/
def demoContainer3 : Container :=
  { pages := [OutPage.cover 0, OutPage.toc 0, OutPage.src "a.pdf" 0,
      OutPage.src "b.pdf" 0, OutPage.src "b.pdf" 1, OutPage.src "c.pdf" 0,
      OutPage.src "c.pdf" 1, OutPage.src "c.pdf" 2, OutPage.src "c.pdf" 3,
      OutPage.src "c.pdf" 4],
    bookmarks := [⟨"Cover", 0⟩, ⟨"Table of Contents", 1⟩, ⟨"a", 2⟩,
      ⟨"b", 3⟩, ⟨"c", 5⟩] }

/-- A readable zero-page document followed by a readable one-page document. -/
def zeroPageFiles : List SrcFile :=
  [⟨"a.pdf", Except.ok []⟩, ⟨"b.pdf", Except.ok [7]⟩]

/-- Two readable documents around one that fails to open. -/
def mixedFiles : List SrcFile :=
  [⟨"a.pdf", Except.ok [0]⟩, ⟨"bad.pdf", Except.error "EOF marker not found"⟩,
    ⟨"c.pdf", Except.ok [0, 1]⟩]

/-- A world whose input directory exists but holds no PDFs. -/
def emptyWorld : World :=
  ⟨"app", fun _ => true, fun _ => [], fun _ => Except.error "unused",
    fun _ => ImageResult.missing⟩

/-- A world with one PDF file that fails to open. -/
def badWorld : World :=
  ⟨"app", fun _ => true, fun _ => ["a.pdf"],
    fun _ => Except.error "EOF marker not found", fun _ => ImageResult.missing⟩

/-- A world with one readable single-page PDF and no cover image. -/
def okWorld : World :=
  ⟨"app", fun _ => true, fun _ => ["a.pdf"], fun _ => Except.ok [0],
    fun _ => ImageResult.missing⟩

/-! ### Lemmas about the display-name transform -/

theorem underscoreToSpace_idem (s : List Char) :
    underscoreToSpace (underscoreToSpace s) = underscoreToSpace s := by
  simp only [underscoreToSpace, List.map_map]
  have hf : ((fun c => if c = '_' then ' ' else c) ∘ fun c => if c = '_' then ' ' else c)
      = fun c => if c = '_' then ' ' else c := by
    funext c
    by_cases h : c = '_' <;> simp [h, Function.comp]
  rw [hf]

theorem stripPdfAll_of_not_contains (t : List Char) (h : containsPdf t = false) :
    stripPdfAll t = t := by
  induction t using containsPdf.induct with
  | case1 => rfl
  | case2 c => rfl
  | case3 c d => rfl
  | case4 c d e => rfl
  | case5 c p d f rest hc => simp [containsPdf, hc] at h
  | case6 c p d f rest hc ih =>
    simp only [containsPdf, if_neg hc] at h
    simp only [stripPdfAll, if_neg hc, ih h]

theorem stripPdfAll_append_pdf (t : List Char) (h : containsPdf t = false) :
    stripPdfAll (t ++ ['.', 'p', 'd', 'f']) = t := by
  induction t using containsPdf.induct with
  | case1 => rfl
  | case2 c => simp [stripPdfAll]
  | case3 c d => simp [stripPdfAll]
  | case4 c d e => simp [stripPdfAll]
  | case5 c p d f rest hc => simp [containsPdf, hc] at h
  | case6 c p d f rest hc ih =>
    simp only [containsPdf, if_neg hc] at h
    simp only [List.cons_append, List.append_eq, stripPdfAll, if_neg hc] at ih ⊢
    rw [ih h]

theorem pdfSuffix_append (t : List Char) :
    pdfSuffix (t ++ ['.', 'p', 'd', 'f']) = true := by
  simp [pdfSuffix, List.reverse_append]

/-- C4 (counterexample): on a name with a non-trailing `.pdf`, the code's
transform removes it as well, so the displayed name differs from the
trailing-suffix-only stripping the claim describes. -/
theorem c4_display_name_counterexample :
    toc_display_name "a.pdf_report.pdf" = "a report" ∧
    specDisplayName "a.pdf_report.pdf" = "a.pdf report" ∧
    toc_display_name "a.pdf_report.pdf" ≠ specDisplayName "a.pdf_report.pdf" := by
  refine ⟨by decide, by decide, by decide⟩

/-- C4 (amended): the TOC rows and the bookmarks use the same transform,
namely removing every occurrence of `.pdf` (one left-to-right pass) and
replacing underscores by spaces; on names that are a `.pdf`-free stem followed
by the `.pdf` suffix it agrees with stripping only the trailing suffix. -/
theorem c4_display_name :
    (∀ s : String, toc_display_name s = bookmark_display_name s) ∧
    (∀ t : List Char, containsPdf t = false →
      toc_display_name (String.mk (t ++ ['.', 'p', 'd', 'f'])) =
        specDisplayName (String.mk (t ++ ['.', 'p', 'd', 'f']))) := by
  refine ⟨fun s => rfl, fun t h => ?_⟩
  show String.mk (underscoreToSpace (stripPdfAll (t ++ ['.', 'p', 'd', 'f'])))
      = specDisplayName (String.mk (t ++ ['.', 'p', 'd', 'f']))
  rw [stripPdfAll_append_pdf t h]
  unfold specDisplayName
  have hdata : (String.mk (t ++ ['.', 'p', 'd', 'f'])).data = t ++ ['.', 'p', 'd', 'f'] := rfl
  rw [hdata, pdfSuffix_append t, if_pos rfl]
  have hlen : (t ++ ['.', 'p', 'd', 'f']).length - 4 = t.length := by
    simp [List.length_append]
  rw [hlen, List.take_left]

/-- C4 (witness): a concrete well-behaved name where the code transform and
the trailing-strip transform agree. -/
theorem c4_display_name_witness :
    containsPdf "annual_report".data = false ∧
    toc_display_name "annual_report.pdf" = specDisplayName "annual_report.pdf" := by
  refine ⟨by decide, ?_⟩
  exact c4_display_name.2 "annual_report".data (by decide)

/-- C5 (counterexample): the transform is not idempotent: removing `.pdf`
from `.pd.pdff` splices a fresh `.pdf` together, which a second application
then removes. -/
theorem c5_idempotent_counterexample :
    displayName ".pd.pdff" = ".pdf" ∧
    displayName (displayName ".pd.pdff") = "" ∧
    displayName (displayName ".pd.pdff") ≠ displayName ".pd.pdff" := by
  refine ⟨by decide, by decide, by decide⟩

/-- C5 (amended): the transform is idempotent on every string whose first
transformation leaves no `.pdf` occurrence behind (in particular on every
name with a single trailing `.pdf`); it is not idempotent on all strings. -/
theorem c5_displayName_idem (s : String)
    (h : containsPdf (displayName s).data = false) :
    displayName (displayName s) = displayName s := by
  have h' : containsPdf (underscoreToSpace (stripPdfAll s.data)) = false := h
  show String.mk (underscoreToSpace (stripPdfAll
      (String.mk (underscoreToSpace (stripPdfAll s.data))).data))
    = String.mk (underscoreToSpace (stripPdfAll s.data))
  rw [show (String.mk (underscoreToSpace (stripPdfAll s.data))).data
      = underscoreToSpace (stripPdfAll s.data) from rfl]
  rw [stripPdfAll_of_not_contains _ h', underscoreToSpace_idem]

/-- C5 (witness): idempotence at a concrete file name. -/
theorem c5_displayName_idem_witness :
    displayName (displayName "annual_report.pdf") = displayName "annual_report.pdf" :=
  c5_displayName_idem "annual_report.pdf" (by decide)

/-! ### Lemmas about the TOC entry loop -/

theorem tocLoop_pageNum_le (n : Nat) : ∀ st : TocState,
    st.pageNum ≤ (tocLoop n st).pageNum := by
  induction n with
  | zero => intro st; exact Nat.le_refl _
  | succ n ih =>
    intro st
    refine Nat.le_trans ?_ (ih (tocEntryStep st))
    unfold tocEntryStep
    split
    · exact Nat.le_succ _
    · exact Nat.le_refl _

theorem tocLoop_pageNum_break (n : Nat) : ∀ st : TocState, 1 ≤ n →
    st.y - ((n : Int) - 1) * rowHeight < breakThreshold →
    st.pageNum + 1 ≤ (tocLoop n st).pageNum := by
  induction n with
  | zero => intro st h; omega
  | succ n ih =>
    intro st _ hy
    show st.pageNum + 1 ≤ (tocLoop n (tocEntryStep st)).pageNum
    by_cases hbr : st.y < breakThreshold
    · have hstep : (tocEntryStep st).pageNum = st.pageNum + 1 := by
        unfold tocEntryStep
        rw [if_pos hbr]
      calc st.pageNum + 1 = (tocEntryStep st).pageNum := hstep.symm
        _ ≤ (tocLoop n (tocEntryStep st)).pageNum := tocLoop_pageNum_le n _
    · have hn : 1 ≤ n := by
        rcases Nat.eq_zero_or_pos n with h0 | h1
        · exfalso
          subst h0
          simp only [Nat.cast_one, rowHeight, breakThreshold, tocMargin] at hy hbr
          omega
        · exact h1
      have hstep : tocEntryStep st = ⟨st.y - rowHeight, st.pageNum,
          st.contHeaders, st.footers⟩ := by
        unfold tocEntryStep
        rw [if_neg hbr]
      rw [hstep]
      have hy' : (st.y - rowHeight) - ((n : Int) - 1) * rowHeight < breakThreshold := by
        have : ((n + 1 : Nat) : Int) - 1 = ((n : Int) - 1) + 1 := by push_cast; ring
        rw [this] at hy
        calc st.y - rowHeight - ((n : Int) - 1) * rowHeight
            = st.y - (((n : Int) - 1) + 1) * rowHeight := by ring
          _ < breakThreshold := hy
      exact ih ⟨st.y - rowHeight, st.pageNum, st.contHeaders, st.footers⟩ hn hy'

theorem tocLoop_contHeaders (n : Nat) : ∀ st : TocState, 1 ≤ st.pageNum →
    st.contHeaders = List.range' 2 (st.pageNum - 1) →
    1 ≤ (tocLoop n st).pageNum ∧
      (tocLoop n st).contHeaders = List.range' 2 ((tocLoop n st).pageNum - 1) := by
  induction n with
  | zero => intro st h1 h2; exact ⟨h1, h2⟩
  | succ n ih =>
    intro st h1 h2
    show 1 ≤ (tocLoop n (tocEntryStep st)).pageNum ∧ _
    apply ih
    · unfold tocEntryStep
      split
      · exact Nat.le_succ_of_le h1
      · exact h1
    · obtain ⟨m, hm⟩ : ∃ m, st.pageNum = m + 1 :=
        ⟨st.pageNum - 1, (Nat.succ_pred_eq_of_pos h1).symm⟩
      unfold tocEntryStep
      split
      · show st.contHeaders ++ [st.pageNum + 1] = List.range' 2 (st.pageNum + 1 - 1)
        rw [h2, hm]
        simp only [Nat.add_sub_cancel, List.range'_1_concat 2 m]
        have : 2 + m = m + 1 + 1 := by omega
        rw [this]
      · exact h2

/-- C6: (a) processing an entry starts a new page exactly when the cursor is
below the threshold `margin + 0.5 inch`; (b) when the entries' cumulative row
height exceeds the first page's usable height the TOC has more than one page;
(c) the continuation header appears exactly on TOC pages 2, 3, ..., never on
the first. -/
theorem c6_toc_pagination :
    (∀ st : TocState, (tocEntryStep st).pageNum = st.pageNum + 1 ↔ st.y < breakThreshold) ∧
    (∀ entries : List (String × Nat),
      usableHeight < (entries.length : Int) * rowHeight →
      2 ≤ (make_toc_pdf entries).pages) ∧
    (∀ entries : List (String × Nat), ∀ q : Nat,
      q ∈ (make_toc_pdf entries).contHeaders ↔
        2 ≤ q ∧ q ≤ (make_toc_pdf entries).pages) := by
  refine ⟨?_, ?_, ?_⟩
  · intro st
    unfold tocEntryStep
    split
    case isTrue h => simpa using h
    case isFalse h => simpa using h
  · intro entries hlen
    have hn : 26 ≤ entries.length := by
      simp only [usableHeight, firstRowY, pageHeight100, tocMargin, rowHeight] at hlen
      omega
    have h1 : 1 ≤ entries.length := by omega
    have hy : (firstRowY : Int) - ((entries.length : Int) - 1) * rowHeight < breakThreshold := by
      have h26 : (26 : Int) ≤ (entries.length : Int) := by exact_mod_cast hn
      simp only [firstRowY, pageHeight100, tocMargin, rowHeight, breakThreshold]
      nlinarith
    have := tocLoop_pageNum_break entries.length ⟨firstRowY, 1, [], []⟩ h1 hy
    simpa [make_toc_pdf] using this
  · intro entries q
    have h := tocLoop_contHeaders entries.length ⟨firstRowY, 1, [], []⟩ (Nat.le_refl 1) rfl
    show q ∈ (tocLoop entries.length ⟨firstRowY, 1, [], []⟩).contHeaders ↔
      2 ≤ q ∧ q ≤ (tocLoop entries.length ⟨firstRowY, 1, [], []⟩).pageNum
    rw [h.2, List.mem_range'_1]
    omega

set_option maxRecDepth 4000 in
/-- C6 (witness): 27 one-line entries overflow the first page: the TOC then
has two pages, and page 2 (alone) carries the continuation header. -/
theorem c6_toc_pagination_witness :
    usableHeight < ((List.replicate 27 (("doc", 1) : String × Nat)).length : Int) * rowHeight ∧
    2 ≤ (make_toc_pdf (List.replicate 27 (("doc", 1) : String × Nat))).pages ∧
    (make_toc_pdf (List.replicate 27 (("doc", 1) : String × Nat))).contHeaders = [2] :=
  ⟨by decide,
    c6_toc_pagination.2.1 (List.replicate 27 (("doc", 1) : String × Nat)) (by decide),
    by decide⟩

/-- C7: the cover renderer always produces exactly one letter-size page; the
fallback title page is used exactly when the image is missing or undecodable;
a warning is printed exactly in the decode-failure case. -/
theorem c7_cover_renderer (img : ImageResult) :
    coverNumPages (make_cover_pdf img) = 1 ∧
    (make_cover_pdf img).pagesizeW = 61200 ∧ (make_cover_pdf img).pagesizeH = 79200 ∧
    ((make_cover_pdf img).usedFallback = true ↔
      img = ImageResult.missing ∨ ∃ e, img = ImageResult.decodeError e) ∧
    ((make_cover_pdf img).warned = true ↔ ∃ e, img = ImageResult.decodeError e) := by
  cases img <;> simp [make_cover_pdf, coverNumPages]

/-! ### Lemmas about the catalog and the assembly -/

theorem appendReaders_fst_length (rs : List (String × List Nat)) : ∀ idx : Nat,
    ((appendReaders rs idx).1).length = (rs.map (fun r => r.2.length)).sum := by
  induction rs with
  | nil => intro idx; rfl
  | cons r rest ih =>
    intro idx
    obtain ⟨name, pgs⟩ := r
    simp [appendReaders, ih (idx + pgs.length)]

theorem appendReaders_snd_length (rs : List (String × List Nat)) : ∀ idx : Nat,
    ((appendReaders rs idx).2).length = rs.length := by
  induction rs with
  | nil => intro idx; rfl
  | cons r rest ih =>
    intro idx
    obtain ⟨name, pgs⟩ := r
    simp [appendReaders, ih (idx + pgs.length)]

theorem appendReaders_targets (rs : List (String × List Nat)) : ∀ idx : Nat,
    ((appendReaders rs idx).2).map (fun b => b.page_number) = readerOffsets rs idx := by
  induction rs with
  | nil => intro idx; rfl
  | cons r rest ih =>
    intro idx
    obtain ⟨name, pgs⟩ := r
    simp [appendReaders, readerOffsets, ih (idx + pgs.length)]

theorem readerOffsets_bounds (rs : List (String × List Nat)) : ∀ idx : Nat,
    (∀ r ∈ rs, 0 < r.2.length) →
    List.Pairwise (· < ·) (readerOffsets rs idx) ∧
      ∀ x ∈ readerOffsets rs idx, idx ≤ x := by
  induction rs with
  | nil => intro idx _; exact ⟨List.Pairwise.nil, by simp [readerOffsets]⟩
  | cons r rest ih =>
    intro idx h
    obtain ⟨name, pgs⟩ := r
    have hp : 0 < pgs.length := h (name, pgs) (List.mem_cons_self _ _)
    have hrest : ∀ r ∈ rest, 0 < r.2.length :=
      fun r hr => h r (List.mem_cons_of_mem _ hr)
    obtain ⟨hpw, hlb⟩ := ih (idx + pgs.length) hrest
    refine ⟨List.Pairwise.cons ?_ hpw, ?_⟩
    · intro x hx
      have := hlb x hx
      omega
    · intro x hx
      simp only [readerOffsets, List.mem_cons] at hx
      rcases hx with rfl | hx
      · exact Nat.le_refl _
      · have := hlb x hx
        omega

theorem make_toc_pdf_pages_pos (entries : List (String × Nat)) :
    1 ≤ (make_toc_pdf entries).pages :=
  tocLoop_pageNum_le entries.length ⟨firstRowY, 1, [], []⟩

theorem catalogAux_entries_startPages (files : List SrcFile) : ∀ cursor : Nat,
    ((catalogAux files cursor).entries).map (fun e => e.2) =
      startPagesFrom cursor (((catalogAux files cursor).readers).map (fun r => r.2.length)) := by
  induction files with
  | nil => intro cursor; rfl
  | cons f rest ih =>
    intro cursor
    cases hf : f.read with
    | error e => simp [catalogAux, hf, ih cursor]
    | ok pages => simp [catalogAux, hf, startPagesFrom, ih (cursor + pages.length)]

theorem startPagesFrom_length (ns : List Nat) : ∀ cursor : Nat,
    (startPagesFrom cursor ns).length = ns.length := by
  induction ns with
  | nil => intro cursor; rfl
  | cons n ns ih => intro cursor; simp [startPagesFrom, ih (cursor + n)]

theorem startPagesFrom_getD (ns : List Nat) : ∀ cursor i : Nat, i < ns.length →
    (startPagesFrom cursor ns).getD i 0 = cursor + 1 + (ns.take i).sum := by
  induction ns with
  | nil => intro cursor i h; exact absurd h (by simp)
  | cons n ns ih =>
    intro cursor i h
    cases i with
    | zero => simp [startPagesFrom]
    | succ i =>
      have hi : i < ns.length := by simpa using h
      simp only [startPagesFrom, List.getD_cons_succ, List.take_succ_cons,
        List.sum_cons, ih (cursor + n) i hi]
      omega

/-- C1: whenever `merge_with_index` succeeds, the output page count is the
cover page count, plus the TOC page count, plus the sum of the page counts of
the cataloged documents, in that order. -/
theorem c1_output_page_count (pd : String) (ri : String → ImageResult)
    (files : List SrcFile) (c : Container)
    (h : merge_with_index pd ri files = Except.ok c) :
    c.pages.length =
      coverNumPages (make_cover_pdf (ri (merge_cover_path pd))) +
        (make_toc_pdf (catalogEntries files)).pages +
        (catalogPageCounts files).sum := by
  simp only [merge_with_index] at h
  split at h
  · exact absurd h (by simp)
  · simp only [Except.ok.injEq] at h
    subst h
    simp [List.length_append, appendReaders_fst_length, catalogEntries,
      catalogPageCounts]
    omega

/-- C1 (witness): one single-page input with no cover image: 1 cover page +
1 TOC page + 1 source page. -/
theorem c1_output_page_count_witness :
    demoContainer1.pages.length =
      coverNumPages (make_cover_pdf
        ((fun _ => ImageResult.missing) (merge_cover_path "app"))) +
        (make_toc_pdf (catalogEntries demoFiles1)).pages +
        (catalogPageCounts demoFiles1).sum :=
  c1_output_page_count "app" (fun _ => ImageResult.missing) demoFiles1
    demoContainer1 (by decide)

/-- C2 (counterexample): with a readable zero-page document in the input, two
bookmarks share a target index, so the targets are not strictly increasing;
the claim quantifies over every run over readable source PDFs and therefore
fails on this run. -/
theorem c2_bookmarks_counterexample :
    bookmarkTargets (merge_with_index "app" (fun _ => ImageResult.missing)
      zeroPageFiles) = [0, 1, 2, 2] ∧
    ¬ List.Pairwise (· < ·) (bookmarkTargets
      (merge_with_index "app" (fun _ => ImageResult.missing) zeroPageFiles)) := by
  refine ⟨by decide, by decide⟩

/-- C2 (amended): whenever `merge_with_index` succeeds, the bookmarks are
"Cover" at 0 and "Table of Contents" at the cover page count followed by one
bookmark per cataloged document at
`coverPages + tocPages + (pages of the documents before it)` — so there are
exactly N+2 of them; the targets are strictly increasing provided every
cataloged document has at least one page (a readable zero-page document makes
two consecutive targets equal). -/
theorem c2_bookmarks (pd : String) (ri : String → ImageResult)
    (files : List SrcFile) (c : Container)
    (h : merge_with_index pd ri files = Except.ok c) :
    c.bookmarks = { title := "Cover", page_number := 0 }
        :: { title := "Table of Contents",
             page_number := coverNumPages (make_cover_pdf (ri (merge_cover_path pd))) }
        :: (appendReaders (catalogAux files 0).readers
            (coverNumPages (make_cover_pdf (ri (merge_cover_path pd))) +
              (make_toc_pdf (catalogEntries files)).pages)).2 ∧
    c.bookmarks.length = (catalogAux files 0).readers.length + 2 ∧
    c.bookmarks.map (fun b => b.page_number) =
      0 :: coverNumPages (make_cover_pdf (ri (merge_cover_path pd)))
        :: readerOffsets (catalogAux files 0).readers
          (coverNumPages (make_cover_pdf (ri (merge_cover_path pd))) +
            (make_toc_pdf (catalogEntries files)).pages) ∧
    ((∀ r ∈ (catalogAux files 0).readers, 0 < r.2.length) →
      List.Pairwise (· < ·) (c.bookmarks.map (fun b => b.page_number))) := by
  simp only [merge_with_index] at h
  split at h
  · exact absurd h (by simp)
  · simp only [Except.ok.injEq] at h
    subst h
    refine ⟨by simp [catalogEntries], ?_, ?_, ?_⟩
    · simp [appendReaders_snd_length]
    · simp [appendReaders_targets, catalogEntries]
    · intro hpos
      have hoff := readerOffsets_bounds (catalogAux files 0).readers
        (coverNumPages (make_cover_pdf (ri (merge_cover_path pd))) +
          (make_toc_pdf (catalogAux files 0).entries).pages) hpos
      have htp : 1 ≤ (make_toc_pdf (catalogAux files 0).entries).pages :=
        make_toc_pdf_pages_pos _
      simp only [List.map_cons, appendReaders_targets]
      refine List.Pairwise.cons ?_ (List.Pairwise.cons ?_ hoff.1)
      · intro b hb
        simp only [List.mem_cons] at hb
        rcases hb with rfl | hb
        · simp [coverNumPages]
        · have := hoff.2 b hb
          simp only [coverNumPages] at this ⊢
          omega
      · intro b hb
        have := hoff.2 b hb
        omega

/-- C2 (witness): three documents of 1, 2 and 5 pages: bookmarks at
0, 1, 2, 3, 5, strictly increasing. -/
theorem c2_bookmarks_witness :
    demoContainer3.bookmarks.map (fun b => b.page_number) = [0, 1, 2, 3, 5] ∧
    List.Pairwise (· < ·) (demoContainer3.bookmarks.map (fun b => b.page_number)) :=
  ⟨by decide,
    (c2_bookmarks "app" (fun _ => ImageResult.missing) demoFiles3 demoContainer3
      (by decide)).2.2.2 (by decide)⟩

/-- C3: the displayed start pages satisfy `startPage(0) = 1` and
`startPage(i) = startPage(i-1) + pageCount(i-1)`, equivalently
`startPage(i) = 1 + sum of the page counts of entries 0..i-1`, counting
cataloged source documents only. -/
theorem c3_start_pages (files : List SrcFile) :
    (catalogStartPages files).length = (catalogPageCounts files).length ∧
    (0 < (catalogStartPages files).length → (catalogStartPages files).getD 0 0 = 1) ∧
    (∀ i, i + 1 < (catalogStartPages files).length →
      (catalogStartPages files).getD (i + 1) 0 =
        (catalogStartPages files).getD i 0 + (catalogPageCounts files).getD i 0) ∧
    (∀ i, i < (catalogStartPages files).length →
      (catalogStartPages files).getD i 0 = 1 + ((catalogPageCounts files).take i).sum) := by
  have key : catalogStartPages files = startPagesFrom 0 (catalogPageCounts files) := by
    simpa [catalogStartPages, catalogEntries, catalogPageCounts] using
      catalogAux_entries_startPages files 0
  have klen : (catalogStartPages files).length = (catalogPageCounts files).length := by
    rw [key, startPagesFrom_length]
  refine ⟨klen, ?_, ?_, ?_⟩
  · intro h0
    rw [key, startPagesFrom_getD _ 0 0 (by omega)]
    simp
  · intro i hi
    have hi1 : i + 1 < (catalogPageCounts files).length := by omega
    have hi0 : i < (catalogPageCounts files).length := by omega
    rw [key, startPagesFrom_getD _ 0 (i + 1) hi1, startPagesFrom_getD _ 0 i hi0,
      List.sum_take_succ _ i hi0, List.getD_eq_getElem _ _ hi0]
    omega
  · intro i hi
    have hi0 : i < (catalogPageCounts files).length := by omega
    rw [key, startPagesFrom_getD _ 0 i hi0]

/-- C3 (witness): page counts 1, 2, 5 give displayed start pages 1, 2, 4. -/
theorem c3_start_pages_witness :
    catalogStartPages demoFiles3 = [1, 2, 4] ∧
    (catalogStartPages demoFiles3).getD 2 0 =
      (catalogStartPages demoFiles3).getD 1 0 + (catalogPageCounts demoFiles3).getD 1 0 :=
  ⟨by decide, (c3_start_pages demoFiles3).2.2.1 1 (by decide)⟩

/-! ### Lemmas about skipping unreadable files and about the entry point -/

theorem catalogAux_filter (files : List SrcFile) : ∀ cursor : Nat,
    catalogAux (files.filter (fun f => f.read.toOption.isSome)) cursor =
      ⟨(catalogAux files cursor).readers, (catalogAux files cursor).entries, []⟩ := by
  induction files with
  | nil => intro cursor; rfl
  | cons f rest ih =>
    intro cursor
    cases hf : f.read with
    | error e =>
      rw [List.filter_cons_of_neg (by simp [hf, Except.toOption]), ih cursor]
      simp [catalogAux, hf]
    | ok pages =>
      rw [List.filter_cons_of_pos (by simp [hf, Except.toOption])]
      simp [catalogAux, hf, ih (cursor + pages.length)]

theorem catalogAux_warnings (files : List SrcFile) : ∀ cursor : Nat,
    (catalogAux files cursor).warnings = files.filterMap (fun f =>
      match f.read with
      | .error e => some ("WARNING: Skipping " ++ f.path ++ " (" ++ e ++ ")")
      | .ok _ => none) := by
  induction files with
  | nil => intro cursor; rfl
  | cons f rest ih =>
    intro cursor
    cases hf : f.read with
    | error e => simp [catalogAux, hf, List.filterMap_cons, ih cursor]
    | ok pages => simp [catalogAux, hf, List.filterMap_cons, ih (cursor + pages.length)]

theorem catalogAux_readers_ne_nil (files : List SrcFile) : ∀ cursor : Nat,
    (∃ f ∈ files, f.read.toOption.isSome = true) →
    (catalogAux files cursor).readers ≠ [] := by
  induction files with
  | nil => intro cursor h; simp at h
  | cons f rest ih =>
    intro cursor h
    cases hf : f.read with
    | ok pages => simp [catalogAux, hf]
    | error e =>
      simp only [catalogAux, hf]
      obtain ⟨g, hg, hgs⟩ := h
      rcases List.mem_cons.mp hg with rfl | hg'
      · rw [hf] at hgs
        simp [Except.toOption] at hgs
      · exact ih cursor ⟨g, hg', hgs⟩

theorem catalogAux_readers_nil_all_err (files : List SrcFile) : ∀ cursor : Nat,
    (∀ f ∈ files, ∃ e, f.read = Except.error e) →
    (catalogAux files cursor).readers = [] := by
  induction files with
  | nil => intro cursor _; rfl
  | cons f rest ih =>
    intro cursor h
    obtain ⟨e, he⟩ := h f (List.mem_cons_self _ _)
    simp only [catalogAux, he]
    exact ih cursor (fun g hg => h g (List.mem_cons_of_mem _ hg))

theorem insertSorted_length (s : String) (l : List String) :
    (insertSorted s l).length = l.length + 1 := by
  induction l with
  | nil => rfl
  | cons t ts ih =>
    simp only [insertSorted]
    split
    · simp
    · simp [ih]

theorem insertSorted_mem (s x : String) (l : List String) :
    x ∈ insertSorted s l ↔ x = s ∨ x ∈ l := by
  induction l with
  | nil => simp [insertSorted]
  | cons t ts ih =>
    simp only [insertSorted]
    split
    · simp [List.mem_cons]
    · simp only [List.mem_cons, ih]
      tauto

theorem sortStrings_length (l : List String) :
    (sortStrings l).length = l.length := by
  induction l with
  | nil => rfl
  | cons s ss ih => simp [sortStrings, insertSorted_length, ih]

theorem sortStrings_mem (x : String) (l : List String) :
    x ∈ sortStrings l ↔ x ∈ l := by
  induction l with
  | nil => simp [sortStrings]
  | cons s ss ih => simp [sortStrings, insertSorted_mem, ih]

theorem noPdfs_msg_ne (d : String) :
    ("No PDFs found in " ++ d) ≠ "No readable PDFs to merge." := by
  intro h
  have h2 := congrArg String.data h
  rw [String.data_append] at h2
  have h3 := congrArg (fun l => l.take 4) h2
  simp only at h3
  rw [List.take_eq_left_iff.mpr (Or.inr (by decide))] at h3
  exact absurd h3 (by decide)

/-- C8: unreadable files are warned about (message naming the file and the
cause) and skipped: the merge result equals the merge of the readable files
alone, and as long as one file is readable the run still produces an output
container. -/
theorem c8_per_file_skip (pd : String) (ri : String → ImageResult)
    (files : List SrcFile) :
    merge_with_index pd ri files =
      merge_with_index pd ri (files.filter (fun f => f.read.toOption.isSome)) ∧
    (catalogAux files 0).warnings = files.filterMap (fun f =>
      match f.read with
      | .error e => some ("WARNING: Skipping " ++ f.path ++ " (" ++ e ++ ")")
      | .ok _ => none) ∧
    ((∃ f ∈ files, f.read.toOption.isSome = true) →
      ∃ c, merge_with_index pd ri files = Except.ok c) := by
  refine ⟨?_, catalogAux_warnings files 0, ?_⟩
  · simp only [merge_with_index, catalogAux_filter files 0]
  · intro hex
    have hne := catalogAux_readers_ne_nil files 0 hex
    simp only [merge_with_index]
    rw [if_neg (by simp only [List.isEmpty_iff]; exact hne)]
    exact ⟨_, rfl⟩

/-- C8 (witness): one corrupt file between two readable ones: the output
equals the output over the two readable files, and the run succeeds. -/
theorem c8_per_file_skip_witness :
    merge_with_index "app" (fun _ => ImageResult.missing) mixedFiles =
      merge_with_index "app" (fun _ => ImageResult.missing)
        (mixedFiles.filter (fun f => f.read.toOption.isSome)) ∧
    ∃ c, merge_with_index "app" (fun _ => ImageResult.missing) mixedFiles =
      Except.ok c :=
  ⟨(c8_per_file_skip "app" (fun _ => ImageResult.missing) mixedFiles).1,
    (c8_per_file_skip "app" (fun _ => ImageResult.missing) mixedFiles).2.2
      ⟨⟨"a.pdf", Except.ok [0]⟩, by decide, by decide⟩⟩

/-- C9: wrong argument count, non-directory input, empty glob, and
nothing-openable all exit non-zero without writing the output; the
no-PDFs-found and none-readable sub-cases print distinguishable messages. -/
theorem c9_main_failure_modes (argv : List String) (w : World) :
    (argv.length ≠ 3 →
      (pyMain argv w).exitCode ≠ 0 ∧ (pyMain argv w).outputWritten = false) ∧
    (argv.length = 3 → w.isDir (argv.getD 2 "") = false →
      (pyMain argv w).exitCode ≠ 0 ∧ (pyMain argv w).outputWritten = false) ∧
    (argv.length = 3 → w.isDir (argv.getD 2 "") = true →
      w.globPdfs (argv.getD 2 "") = [] →
      (pyMain argv w).exitCode ≠ 0 ∧ (pyMain argv w).outputWritten = false ∧
        ("No PDFs found in " ++ argv.getD 2 "") ∈ (pyMain argv w).printed) ∧
    (argv.length = 3 → w.isDir (argv.getD 2 "") = true →
      w.globPdfs (argv.getD 2 "") ≠ [] →
      (∀ p ∈ w.globPdfs (argv.getD 2 ""), ∃ e, w.readPdf p = Except.error e) →
      (pyMain argv w).exitCode ≠ 0 ∧ (pyMain argv w).outputWritten = false ∧
        "No readable PDFs to merge." ∈ (pyMain argv w).printed) ∧
    (∀ d : String, ("No PDFs found in " ++ d) ≠ "No readable PDFs to merge.") := by
  refine ⟨?_, ?_, ?_, ?_, noPdfs_msg_ne⟩
  · intro h
    simp [pyMain, h]
  · intro h3 hdir
    obtain ⟨a, b, c, rfl⟩ := List.length_eq_three.mp h3
    simp only [List.getD_cons_succ, List.getD_cons_zero] at hdir
    simp [pyMain, hdir]
  · intro h3 hdir hglob
    obtain ⟨a, b, c, rfl⟩ := List.length_eq_three.mp h3
    simp only [List.getD_cons_succ, List.getD_cons_zero] at hdir hglob
    simp [pyMain, hdir, hglob, sortStrings]
  · intro h3 hdir hne hall
    obtain ⟨a, b, c, rfl⟩ := List.length_eq_three.mp h3
    simp only [List.getD_cons_succ, List.getD_cons_zero] at hdir hne hall ⊢
    have hpne : sortStrings (w.globPdfs c) ≠ [] := fun hq => hne (by
      have hlen := congrArg List.length hq
      rw [sortStrings_length] at hlen
      exact List.length_eq_zero.mp hlen)
    have hreaders : (catalogAux ((sortStrings (w.globPdfs c)).map
        (fun p => SrcFile.mk p (w.readPdf p))) 0).readers = [] := by
      apply catalogAux_readers_nil_all_err
      intro f hf
      simp only [List.mem_map] at hf
      obtain ⟨p, hp, rfl⟩ := hf
      exact hall p ((sortStrings_mem p _).mp hp)
    have hmerge : merge_with_index w.programDir w.readImage
        ((sortStrings (w.globPdfs c)).map
          (fun p => SrcFile.mk p (w.readPdf p))) =
        Except.error "No readable PDFs to merge." := by
      simp [merge_with_index, hreaders]
    simp [pyMain, hdir, hmerge, List.isEmpty_iff, hpne]

/-- C9 (witness): a directory with no PDFs and a directory whose only PDF is
unreadable both exit 1 with the respective message. -/
theorem c9_main_failure_modes_witness :
    ((pyMain ["main.py", "out.pdf", "in"] emptyWorld).exitCode ≠ 0 ∧
      ("No PDFs found in " ++ "in") ∈
        (pyMain ["main.py", "out.pdf", "in"] emptyWorld).printed) ∧
    ((pyMain ["main.py", "out.pdf", "in"] badWorld).exitCode ≠ 0 ∧
      "No readable PDFs to merge." ∈
        (pyMain ["main.py", "out.pdf", "in"] badWorld).printed) := by
  have h1 := (c9_main_failure_modes ["main.py", "out.pdf", "in"] emptyWorld).2.2.1
    rfl rfl rfl
  have h2 := (c9_main_failure_modes ["main.py", "out.pdf", "in"] badWorld).2.2.2.1
    rfl rfl (by decide) (fun p hp => ⟨"EOF marker not found", rfl⟩)
  exact ⟨⟨h1.1, h1.2.2⟩, ⟨h2.1, h2.2.2⟩⟩

/-- C10: whenever the run looks the cover image up at all, it does so at
`programDir ++ "/static/cover.png"`, a path the command-line arguments cannot
influence: two runs in the same world that both reach the lookup use the same
path. -/
theorem c10_cover_path_fixed (argv argv2 : List String) (w : World) :
    ((pyMain argv w).coverPathUsed = none ∨
      (pyMain argv w).coverPathUsed = some (w.programDir ++ "/static/cover.png")) ∧
    merge_cover_path w.programDir = w.programDir ++ "/static/cover.png" ∧
    ((pyMain argv w).coverPathUsed.isSome = true →
      (pyMain argv2 w).coverPathUsed.isSome = true →
      (pyMain argv w).coverPathUsed = (pyMain argv2 w).coverPathUsed) := by
  have key : ∀ a : List String, (pyMain a w).coverPathUsed = none ∨
      (pyMain a w).coverPathUsed = some (merge_cover_path w.programDir) := by
    intro a
    simp only [pyMain]
    split
    · exact Or.inl rfl
    · split
      · exact Or.inl rfl
      · split
        · exact Or.inl rfl
        · split
          · exact Or.inl rfl
          · exact Or.inr rfl
  refine ⟨key argv, rfl, ?_⟩
  intro h1 h2
  rcases key argv with ha | ha
  · rw [ha] at h1
    simp at h1
  · rcases key argv2 with hb | hb
    · rw [hb] at h2
      simp at h2
    · rw [ha, hb]

/-- C10 (witness): two runs differing in OUTPUT_PATH look the cover up at the
same fixed path under the program directory. -/
theorem c10_cover_path_fixed_witness :
    (pyMain ["main.py", "out.pdf", "in"] okWorld).coverPathUsed =
      some ("app" ++ "/static/cover.png") ∧
    (pyMain ["main.py", "out.pdf", "in"] okWorld).coverPathUsed =
      (pyMain ["main.py", "other.pdf", "in"] okWorld).coverPathUsed := by
  refine ⟨?_, (c10_cover_path_fixed ["main.py", "out.pdf", "in"]
      ["main.py", "other.pdf", "in"] okWorld).2.2 (by decide) (by decide)⟩
  rcases (c10_cover_path_fixed ["main.py", "out.pdf", "in"]
      ["main.py", "other.pdf", "in"] okWorld).1 with h | h
  · exact absurd h (by decide)
  · exact h
